import Mathlib

/-!
Shallow embedding of `src/main.py` (an expense-tracker service with a single
SQLite table `expenses(id, amount, date, category, subcategory, note)`) and
proofs about its operations.

Modelling conventions:
* `amount` (Python `float`, used only for currency) is modelled as `ℚ`.
* A database state is the list of rows in insertion order together with the
  AUTOINCREMENT sequence value (`nextId`); ids are `ℕ`.
* SQL `TEXT` columns are `String`; nullable columns are `Option String`.
  SQLite `BINARY` comparison of the zero-padded ISO dates coincides with
  lexicographic `String` order.
* Python truthiness tests on optional string parameters (`if category:`) are
  `truthy`, which is false for `None` and for the empty string.
* Storage faults (sqlite3 exceptions at connect/execute time) are injected
  through a `dbErr : Option String` parameter carrying `str(e)`.  Each
  operation returns `Except String String`: `.ok` is a string returned to the
  caller, `.error` is an exception propagating out of the handler.
* `f"{x:.2f}"` is modelled by `format2`.  For values that are an exact number
  of cents (every value used in the theorems below) it agrees with IEEE
  printf rounding.
-/

instance : DecidableEq (Except String String)
  | .error a, .error b =>
    if h : a = b then .isTrue (h ▸ rfl)
    else .isFalse (fun hh => by cases hh; exact h rfl)
  | .error _, .ok _ => .isFalse (fun hh => by cases hh)
  | .ok _, .error _ => .isFalse (fun hh => by cases hh)
  | .ok a, .ok b =>
    if h : a = b then .isTrue (h ▸ rfl)
    else .isFalse (fun hh => by cases hh; exact h rfl)

/-- Two-decimal currency rendering, mirroring Python `f"{x:.2f}"`. -/
def format2 (q : ℚ) : String :=
  let c : Int := (q * 100 + 1 / 2).floor
  let n : Nat := c.natAbs
  let ip : Nat := n / 100
  let fr : Nat := n % 100
  (if c < 0 then "-" else "") ++ toString ip ++ "." ++
    (if fr < 10 then "0" ++ toString fr else toString fr)

/-- Left-aligned space padding to width `w`, mirroring Python `f"{s:<w}"`. -/
def padRight (s : String) (w : Nat) : String :=
  s ++ String.mk (List.replicate (w - s.length) ' ')

/-- Python `x or "N/A"`: `None` and the empty string display as "N/A". -/
def displayOpt (o : Option String) : String :=
  match o with
  | none => "N/A"
  | some s => if s.isEmpty then "N/A" else s

/-- Python truthiness of an optional string: `None` and `""` are falsy. -/
def truthy (o : Option String) : Bool :=
  match o with
  | none => false
  | some s => !s.isEmpty

/-- Python `str.upper()` on the ASCII category names: uppercase every
character. -/
def toUpperStr (s : String) : String :=
  ⟨s.data.map Char.toUpper⟩

/-- One row of the `expenses` table. -/
structure Record where
  id : Nat
  amount : ℚ
  date : String
  category : String
  subcategory : Option String
  note : Option String
deriving DecidableEq, Repr

/-- State of the store: rows in insertion order plus the AUTOINCREMENT
sequence (the id the next insert will receive). -/
structure DB where
  rows : List Record
  nextId : Nat
deriving DecidableEq, Repr

/-- A freshly created `expenses` table: no rows, ids start at 1. -/
def emptyDB : DB := ⟨[], 1⟩

/-- Embedding of `init_db`: `CREATE TABLE IF NOT EXISTS` keeps an existing
table unchanged and otherwise creates the empty one. -/
def init_db (existing : Option DB) : DB :=
  existing.getD emptyDB

/-- Caller-supplied arguments of `add_expense`. -/
structure AddArgs where
  amount : ℚ
  category : String
  subcategory : Option String
  note : Option String
  date : Option String
deriving DecidableEq, Repr

/-- Embedding of `record_date = date or datetime.now().strftime("%Y-%m-%d")`;
`today` is the ambient current date. -/
def record_date (a : AddArgs) (today : String) : String :=
  match a.date with
  | some d => if d.isEmpty then today else d
  | none => today

/-- Embedding of the `add_expense` tool.  Validation precedes any store
access; the insert appends one row with id `st.nextId`; a storage fault is
caught and reported as `.ok` error text with the state unchanged. -/
def add_expense (dbErr : Option String) (st : DB) (a : AddArgs) (today : String) :
    DB × Except String String :=
  if a.amount ≤ 0 then
    (st, .ok "Error: Amount must be a positive number.")
  else
    let rd := record_date a today
    match dbErr with
    | some e => (st, .ok ("Error: Failed to save expense to database: " ++ e))
    | none =>
      let r : Record := ⟨st.nextId, a.amount, rd, a.category, a.subcategory, a.note⟩
      (⟨st.rows ++ [r], st.nextId + 1⟩,
        .ok ("Successfully added expense ID " ++ toString st.nextId ++ ": " ++
          a.category ++ " (" ++ displayOpt a.subcategory ++ ") - $" ++
          format2 a.amount ++ " on " ++ rd))

/-- Lexicographic comparison of character lists: SQLite compares `TEXT`
values with BINARY collation, i.e. bytewise, which on UTF-8 encodings of
code-point lists is exactly this order. -/
def charListLt : List Char → List Char → Bool
  | [], [] => false
  | [], _ :: _ => true
  | _ :: _, [] => false
  | a :: as, b :: bs => decide (a < b) || (a == b && charListLt as bs)

/-- Strict lexicographic order on strings (SQLite `<` on TEXT). -/
def strLt (a b : String) : Bool :=
  charListLt a.data b.data

/-- Lexicographic `≤` on strings (SQLite `<=`, `>=` on TEXT). -/
def strLe (a b : String) : Bool :=
  !(strLt b a)

/-- The conjunctive WHERE clause built by `list_expenses` (each filter is
added only when the Python argument is truthy). -/
def matchesList (c s e : Option String) (r : Record) : Bool :=
  (if truthy c then r.category == c.getD "" else true) &&
  (if truthy s then strLe (s.getD "") r.date else true) &&
  (if truthy e then strLe r.date (e.getD "") else true)

/-- The WHERE clause built by `get_summary` (date bounds only). -/
def matchesSummary (s e : Option String) (r : Record) : Bool :=
  (if truthy s then strLe (s.getD "") r.date else true) &&
  (if truthy e then strLe r.date (e.getD "") else true)

/-- ORDER BY date DESC, id DESC: `listOrder a b` holds when `a` may appear
no later than `b` in the output. -/
def listOrder (a b : Record) : Prop :=
  strLt b.date a.date = true ∨ (a.date = b.date ∧ b.id ≤ a.id)

instance : DecidableRel listOrder := fun a b => by
  unfold listOrder; infer_instance

/-- The ORDER BY of `list_expenses`. -/
def sortRows (l : List Record) : List Record :=
  l.insertionSort listOrder

/-- SQLite LIMIT semantics: a negative limit means no limit at all. -/
def applyLimit (limit : Int) (l : List Record) : List Record :=
  if limit < 0 then l else l.take limit.toNat

/-- Row set produced by the SELECT of `list_expenses`. -/
def listRows (st : DB) (c s e : Option String) (limit : Int) : List Record :=
  applyLimit limit (sortRows (st.rows.filter (matchesList c s e)))

/-- One data line of the `list_expenses` table rendering. -/
def formatListRow (r : Record) : String :=
  padRight (toString r.id) 4 ++ " | " ++ padRight r.date 10 ++ " | " ++
    padRight r.category 12 ++ " | " ++ padRight (displayOpt r.subcategory) 12 ++
    " | $" ++ padRight (format2 r.amount) 7 ++ " | " ++ r.note.getD ""

/-- Header lines of the `list_expenses` rendering. -/
def listHeader : List String :=
  [padRight "ID" 4 ++ " | " ++ padRight "Date" 10 ++ " | " ++
     padRight "Category" 12 ++ " | " ++ padRight "Subcategory" 12 ++ " | " ++
     padRight "Amount" 8 ++ " | " ++ "Note",
   String.mk (List.replicate 80 '-')]

/-- Embedding of the `list_expenses` tool. -/
def list_expenses (dbErr : Option String) (st : DB) (c s e : Option String)
    (limit : Int) : DB × Except String String :=
  match dbErr with
  | some m => (st, .ok ("Error: " ++ m))
  | none =>
    let rows := listRows st c s e limit
    if rows.isEmpty then
      (st, .ok "No expenses found matching the criteria.")
    else
      (st, .ok (String.intercalate "\n" (listHeader ++ rows.map formatListRow)))

/-- Python default value of the `limit` parameter of `list_expenses`. -/
def list_expenses_default (dbErr : Option String) (st : DB)
    (c s e : Option String) : DB × Except String String :=
  list_expenses dbErr st c s e 20

/-- One output row of the GROUP BY query of `get_summary`. -/
structure SummaryGroup where
  category : String
  subcategory : Option String
  total : ℚ
  entryCount : Nat
deriving DecidableEq, Repr

/-- ORDER BY category, SUM(amount) DESC. -/
def summaryOrder (a b : SummaryGroup) : Prop :=
  strLt a.category b.category = true ∨ (a.category = b.category ∧ b.total ≤ a.total)

instance : DecidableRel summaryOrder := fun a b => by
  unfold summaryOrder; infer_instance

/-- GROUP BY category, subcategory with SUM(amount) and COUNT, then
ORDER BY category, SUM(amount) DESC. -/
def summaryGroups (l : List Record) : List SummaryGroup :=
  let keys := (l.map fun r => (r.category, r.subcategory)).dedup
  let gs := keys.map fun k =>
    let ms := l.filter fun r => r.category == k.1 && r.subcategory == k.2
    SummaryGroup.mk k.1 k.2 ((ms.map (·.amount)).sum) ms.length
  gs.insertionSort summaryOrder

/-- The report loop of `get_summary`: a category header is emitted whenever
the category changes, showing the aggregates of the row at hand, and a
subcategory line is emitted when the subcategory is truthy. -/
def renderGroups : Option String → List SummaryGroup → List String
  | _, [] => []
  | cur, g :: rest =>
    (if cur ≠ some g.category then
      ["\n[" ++ toUpperStr g.category ++ "] - Total: $" ++ format2 g.total ++
        " (" ++ toString g.entryCount ++ " entries)"]
     else []) ++
    (match g.subcategory with
     | some s => if s.isEmpty then [] else ["  └─ " ++ s ++ ": $" ++ format2 g.total]
     | none => []) ++
    renderGroups (some g.category) rest

/-- Total of the amounts of a row set (SQL `SUM(amount)`, with the
`or 0` fallback of the source for the empty case). -/
def sumAmounts (l : List Record) : ℚ :=
  (l.map (·.amount)).sum

/-- Embedding of the `get_summary` tool. -/
def get_summary (dbErr : Option String) (st : DB) (s e : Option String) :
    DB × Except String String :=
  match dbErr with
  | some m => (st, .ok ("Error gathering summary: " ++ m))
  | none =>
    let filtered := st.rows.filter (matchesSummary s e)
    let gs := summaryGroups filtered
    if gs.isEmpty then
      (st, .ok "No data recorded for the selected period.")
    else
      (st, .ok (String.intercalate "\n"
        (["Expense Summary Report (" ++ (if truthy s then s.getD "" else "Beginning") ++
            " to " ++ (if truthy e then e.getD "" else "Now") ++ ")",
          "TOTAL SPEND: $" ++ format2 (sumAmounts filtered),
          String.mk (List.replicate 40 '-')] ++ renderGroups none gs)))

/-- Embedding of the `expenses://summary` resource.  The source performs its
query with no surrounding try/except, so a storage fault propagates
(`.error`) instead of being turned into result text. -/
def get_resource_summary (dbErr : Option String) (dbPath : String) (st : DB) :
    DB × Except String String :=
  match dbErr with
  | some m => (st, .error m)
  | none =>
    (st, .ok ("Database: " ++ dbPath ++ "\nTotal lifetime spend tracked: $" ++
      format2 (sumAmounts st.rows)))

/-- Key order used to sort the configured category names. -/
def catKeyOrder (p q : String × List String) : Prop := strLe p.1 q.1 = true

instance : DecidableRel catKeyOrder := fun p q => by
  unfold catKeyOrder; infer_instance

/-- Embedding of the `expenses://categories` resource.  The source reads only
the configuration file, never the store; the state passes through. -/
def get_categories_and_subcategories (config : List (String × List String))
    (st : DB) : DB × String :=
  if config.isEmpty then
    (st, "No categories configured.")
  else
    (st, String.intercalate "\n"
      (["Full Expense Categories Hierarchy:", String.mk (List.replicate 35 '-')] ++
        (config.insertionSort catKeyOrder).flatMap fun p =>
          ("\n" ++ toUpperStr p.1) ::
            (if p.2.isEmpty then ["  (No subcategories)"]
             else (p.2.insertionSort fun a b => strLe a b = true).map
               fun s => "  └─ " ++ s)))

/-- Fold a sequence of `add_expense` calls (argument plus ambient date per
call, storage healthy) over the freshly initialised store. -/
def applyAdds (l : List (AddArgs × String)) : DB :=
  l.foldl (fun st p => (add_expense none st p.1 p.2).1) (init_db none)

/-- The three-record store of the spec's summary example:
Food/Grocery $10, Food/Restaurant $30, Transport $5. -/
def db3 : DB :=
  ⟨[⟨1, 10, "2024-01-01", "Food", some "Grocery", none⟩,
    ⟨2, 30, "2024-01-01", "Food", some "Restaurant", none⟩,
    ⟨3, 5, "2024-01-01", "Transport", none, none⟩], 4⟩

/-- The three-record store of the spec's date-filtering example
(records dated 2024-01-01, 2024-01-15 and 2024-02-01). -/
def dbDates : DB :=
  ⟨[⟨1, 10, "2024-01-01", "Food", none, none⟩,
    ⟨2, 20, "2024-01-15", "Food", none, none⟩,
    ⟨3, 30, "2024-02-01", "Food", none, none⟩], 4⟩

/-! ## Order lemmas for the embedded comparisons -/

theorem charListLt_irrefl : ∀ as, charListLt as as = false := by
  intro as
  induction as with
  | nil => rfl
  | cons a as ih => simp [charListLt, ih, lt_irrefl]

theorem charListLt_trans : ∀ as bs cs, charListLt as bs = true →
    charListLt bs cs = true → charListLt as cs = true := by
  intro as
  induction as with
  | nil =>
    intro bs cs hab hbc
    cases bs with
    | nil => exact absurd hab (by simp [charListLt])
    | cons b bs =>
      cases cs with
      | nil => exact absurd hbc (by simp [charListLt])
      | cons c cs => rfl
  | cons a as ih =>
    intro bs cs hab hbc
    cases bs with
    | nil => exact absurd hab (by simp [charListLt])
    | cons b bs =>
      cases cs with
      | nil => exact absurd hbc (by simp [charListLt])
      | cons c cs =>
        simp only [charListLt, Bool.or_eq_true, Bool.and_eq_true,
          decide_eq_true_eq, beq_iff_eq] at hab hbc ⊢
        rcases hab with hab | ⟨hab, hab'⟩
        · rcases hbc with hbc | ⟨hbc, _⟩
          · exact Or.inl (hab.trans hbc)
          · exact Or.inl (hbc ▸ hab)
        · rcases hbc with hbc | ⟨hbc, hbc'⟩
          · exact Or.inl (hab ▸ hbc)
          · exact Or.inr ⟨hab.trans hbc, ih bs cs hab' hbc'⟩

theorem charListLt_connex : ∀ as bs, charListLt as bs = false →
    charListLt bs as = false → as = bs := by
  intro as
  induction as with
  | nil =>
    intro bs hab _
    cases bs with
    | nil => rfl
    | cons b bs => exact absurd hab (by simp [charListLt])
  | cons a as ih =>
    intro bs hab hba
    cases bs with
    | nil => exact absurd hba (by simp [charListLt])
    | cons b bs =>
      simp only [charListLt, Bool.or_eq_false_iff, Bool.and_eq_false_iff,
        decide_eq_false_iff_not, beq_eq_false_iff_ne, ne_eq] at hab hba
      have hab1 := hab.1
      have hba1 := hba.1
      have heq : a = b := le_antisymm (not_lt.mp hba1) (not_lt.mp hab1)
      subst heq
      rcases hab.2 with h | h
      · exact absurd rfl h
      · rcases hba.2 with h' | h'
        · exact absurd rfl h'
        · rw [ih bs h h']

theorem strLt_irrefl (a : String) : strLt a a = false :=
  charListLt_irrefl a.data

theorem strLt_trans {a b c : String} (hab : strLt a b = true)
    (hbc : strLt b c = true) : strLt a c = true :=
  charListLt_trans a.data b.data c.data hab hbc

theorem strLt_connex {a b : String} (hab : strLt a b = false)
    (hba : strLt b a = false) : a = b := by
  cases a with
  | mk da =>
    cases b with
    | mk db => exact congrArg String.mk (charListLt_connex da db hab hba)

instance : IsTotal Record listOrder where
  total a b := by
    unfold listOrder
    cases hba : strLt b.date a.date with
    | true => exact Or.inl (Or.inl rfl)
    | false =>
      cases hab : strLt a.date b.date with
      | true => exact Or.inr (Or.inl rfl)
      | false =>
        have heq := strLt_connex hab hba
        rcases Nat.le_total b.id a.id with h' | h'
        · exact Or.inl (Or.inr ⟨heq, h'⟩)
        · exact Or.inr (Or.inr ⟨heq.symm, h'⟩)

instance : IsTrans Record listOrder where
  trans a b c hab hbc := by
    unfold listOrder at *
    rcases hab with hab | ⟨hab, hab'⟩
    · rcases hbc with hbc | ⟨hbc, _⟩
      · exact Or.inl (strLt_trans hbc hab)
      · exact Or.inl (hbc ▸ hab)
    · rcases hbc with hbc | ⟨hbc, hbc'⟩
      · exact Or.inl (by rw [hab]; exact hbc)
      · exact Or.inr ⟨hab.trans hbc, hbc'.trans hab'⟩

/-! ## Helper lemmas about the embedded operations -/

theorem matchesList_nil_filters (r : Record) : matchesList none none none r = true := rfl

theorem mem_sortRows {l : List Record} {x : Record} : x ∈ sortRows l ↔ x ∈ l :=
  List.mem_insertionSort listOrder

theorem sorted_sortRows (l : List Record) : List.Sorted listOrder (sortRows l) :=
  List.sorted_insertionSort listOrder l

theorem sortRows_cons_of_strict_max {l : List Record} {x : Record} (hx : x ∈ l)
    (hmax : ∀ y ∈ l, y = x ∨ ¬ listOrder y x) : ∃ t, sortRows l = x :: t := by
  cases hs : sortRows l with
  | nil =>
    have hmem : x ∈ ([] : List Record) := hs ▸ mem_sortRows.mpr hx
    exact absurd hmem (List.not_mem_nil x)
  | cons a t =>
    by_cases hax : a = x
    · exact ⟨t, by rw [hax]⟩
    · have hx' : x ∈ a :: t := hs ▸ mem_sortRows.mpr hx
      have hxt : x ∈ t := by
        rcases List.mem_cons.mp hx' with h | h
        · exact absurd h.symm hax
        · exact h
      have hsorted : List.Sorted listOrder (a :: t) := hs ▸ sorted_sortRows l
      have hrel : listOrder a x := List.rel_of_sorted_cons hsorted x hxt
      have ha : a ∈ l := mem_sortRows.mp (hs ▸ List.mem_cons_self a t)
      rcases hmax a ha with h | h
      · exact absurd h hax
      · exact absurd hrel h

theorem add_expense_pos {st : DB} {a : AddArgs} {today : String}
    (h : 0 < a.amount) :
    add_expense none st a today =
      (⟨st.rows ++ [⟨st.nextId, a.amount, record_date a today, a.category,
          a.subcategory, a.note⟩], st.nextId + 1⟩,
        .ok ("Successfully added expense ID " ++ toString st.nextId ++ ": " ++
          a.category ++ " (" ++ displayOpt a.subcategory ++ ") - $" ++
          format2 a.amount ++ " on " ++ record_date a today)) := by
  unfold add_expense
  rw [if_neg (not_le.mpr h)]

/-! ## Claim theorems -/

/-- C2 counterexample: a storage failure during the lifetime-summary resource
read (`get_resource_summary`) is not caught at the operation boundary — it
propagates as an unhandled fault (`.error`) instead of being returned as a
textual result, refuting the claim that every operation catches storage
failures. -/
theorem resource_summary_fault_propagates :
    (get_resource_summary (some "disk I/O error")
      "/tmp/expense_tracker/expenses.db" emptyDB).2 = Except.error "disk I/O error" := rfl

/-- C2 (amended): a storage failure is caught and returned as a human-readable
textual result, with the store state unchanged, by the three tools
`add_expense`, `list_expenses` and `get_summary`; the lifetime-summary
resource read alone performs its query without a handler, so a storage
failure there propagates as a fault. -/
theorem storage_failures_caught_in_tools :
    ∀ (m p today : String) (st : DB) (a : AddArgs) (c s e sd ed : Option String)
      (lim : Int),
      (∃ t, (add_expense (some m) st a today).2 = Except.ok t) ∧
      (add_expense (some m) st a today).1 = st ∧
      list_expenses (some m) st c s e lim = (st, Except.ok ("Error: " ++ m)) ∧
      get_summary (some m) st sd ed = (st, Except.ok ("Error gathering summary: " ++ m)) ∧
      (get_resource_summary (some m) p st).2 = Except.error m := by
  intro m p today st a c s e sd ed lim
  refine ⟨?_, ?_, rfl, rfl, rfl⟩
  · unfold add_expense
    by_cases h : a.amount ≤ 0
    · rw [if_pos h]
      exact ⟨_, rfl⟩
    · rw [if_neg h]
      exact ⟨_, rfl⟩
  · unfold add_expense
    by_cases h : a.amount ≤ 0
    · rw [if_pos h]
    · rw [if_neg h]

/-- C3: for every amount ≤ 0, `add_expense` returns the descriptive error
text as an ordinary result (not a fault) and leaves the store — hence the
row count — unchanged; and for every amount > 0 the insert goes through
whatever the other fields are, so no field other than amount is validated. -/
theorem add_expense_rejects_nonpositive :
    ∀ (dbErr : Option String) (st : DB) (a : AddArgs) (today : String),
      (a.amount ≤ 0 →
        add_expense dbErr st a today =
          (st, Except.ok "Error: Amount must be a positive number.")) ∧
      (0 < a.amount →
        (add_expense none st a today).1.rows.length = st.rows.length + 1) := by
  intro dbErr st a today
  constructor
  · intro h
    unfold add_expense
    rw [if_pos h]
  · intro h
    rw [add_expense_pos h]
    simp

/-- Witness for C3 at amount −5: the validation hypothesis holds and the
rejection equation is obtained from the theorem. -/
theorem add_expense_rejects_nonpositive_witness :
    (-5 : ℚ) ≤ 0 ∧
      add_expense none emptyDB ⟨-5, "Food", none, none, none⟩ "2024-01-02" =
        (emptyDB, Except.ok "Error: Amount must be a positive number.") :=
  ⟨by decide,
    (add_expense_rejects_nonpositive none emptyDB ⟨-5, "Food", none, none, none⟩
      "2024-01-02").1 (by decide)⟩

/-- C8: the read operations (`list_expenses`, `get_summary`, both resources)
leave the expenses table completely unchanged, and `add_expense` either
leaves the rows unchanged or appends exactly one new row at the end — it
never modifies or deletes existing rows. -/
theorem records_immutable :
    ∀ (dbErr : Option String) (st : DB) (c s e sd ed : Option String)
      (lim : Int) (p today : String) (config : List (String × List String))
      (a : AddArgs),
      (list_expenses dbErr st c s e lim).1 = st ∧
      (get_summary dbErr st sd ed).1 = st ∧
      (get_resource_summary dbErr p st).1 = st ∧
      (get_categories_and_subcategories config st).1 = st ∧
      ((add_expense dbErr st a today).1.rows = st.rows ∨
        ∃ r, (add_expense dbErr st a today).1.rows = st.rows ++ [r]) := by
  intro dbErr st c s e sd ed lim p today config a
  refine ⟨?_, ?_, ?_, ?_, ?_⟩
  · cases dbErr with
    | some m => rfl
    | none =>
      simp only [list_expenses]
      split <;> rfl
  · cases dbErr with
    | some m => rfl
    | none =>
      simp only [get_summary]
      split <;> rfl
  · cases dbErr <;> rfl
  · unfold get_categories_and_subcategories
    split <;> rfl
  · unfold add_expense
    by_cases h : a.amount ≤ 0
    · rw [if_pos h]
      exact Or.inl rfl
    · rw [if_neg h]
      cases dbErr with
      | some m => exact Or.inl rfl
      | none => exact Or.inr ⟨_, rfl⟩

/-- C10: an empty string passed for an optional string parameter behaves
exactly like an omitted parameter: each of the three `list_expenses` filters
is skipped for `""`, and `add_expense` with date `""` stores the current
date. -/
theorem empty_string_params :
    ∀ (dbErr : Option String) (st : DB) (c s e : Option String) (lim : Int)
      (am : ℚ) (cat : String) (sub nt : Option String) (today : String),
      list_expenses dbErr st (some "") s e lim = list_expenses dbErr st none s e lim ∧
      list_expenses dbErr st c (some "") e lim = list_expenses dbErr st c none e lim ∧
      list_expenses dbErr st c s (some "") lim = list_expenses dbErr st c s none lim ∧
      record_date ⟨am, cat, sub, nt, some ""⟩ today = today ∧
      add_expense dbErr st ⟨am, cat, sub, nt, some ""⟩ today =
        add_expense dbErr st ⟨am, cat, sub, nt, none⟩ today := by
  intro dbErr st c s e lim am cat sub nt today
  exact ⟨rfl, rfl, rfl, rfl, rfl⟩

theorem list_expenses_none_empty {st : DB} {c s e : Option String} {lim : Int}
    (h : listRows st c s e lim = []) :
    list_expenses none st c s e lim =
      (st, Except.ok "No expenses found matching the criteria.") := by
  simp [list_expenses, h]

theorem list_expenses_none_nonempty {st : DB} {c s e : Option String} {lim : Int}
    (h : (listRows st c s e lim).isEmpty = false) :
    list_expenses none st c s e lim =
      (st, Except.ok (String.intercalate "\n"
        (listHeader ++ (listRows st c s e lim).map formatListRow))) := by
  simp [list_expenses, h]

/-- C5: for every table state, filters and non-negative limit, the rows
returned by `list_expenses` are sorted by date descending then id descending
(so same-date rows appear with the later-inserted, higher-id one first),
number at most `limit`, all satisfy the filters, and no matching row is
dropped unless the limit was reached; the Python default of the limit
parameter is 20 (`list_expenses_default`). -/
theorem list_query_spec :
    ∀ (st : DB) (c s e : Option String) (lim : Int), 0 ≤ lim →
      List.Sorted listOrder (listRows st c s e lim) ∧
      ((listRows st c s e lim).length : Int) ≤ lim ∧
      (∀ r ∈ listRows st c s e lim, r ∈ st.rows ∧ matchesList c s e r = true) ∧
      (∀ r ∈ st.rows, matchesList c s e r = true →
        r ∈ listRows st c s e lim ∨ (listRows st c s e lim).length = lim.toNat) ∧
      list_expenses_default none st c s e = list_expenses none st c s e 20 := by
  intro st c s e lim hlim
  have hLR : listRows st c s e lim =
      (sortRows (st.rows.filter (matchesList c s e))).take lim.toNat := by
    unfold listRows applyLimit
    rw [if_neg (not_lt.mpr hlim)]
  refine ⟨?_, ?_, ?_, ?_, rfl⟩
  · rw [hLR]
    exact List.Pairwise.sublist (List.take_sublist _ _) (sorted_sortRows _)
  · rw [hLR]
    have h1 : ((sortRows (st.rows.filter (matchesList c s e))).take lim.toNat).length
        ≤ lim.toNat := by
      rw [List.length_take]
      exact min_le_left _ _
    omega
  · intro r hr
    rw [hLR] at hr
    have hr' : r ∈ sortRows (st.rows.filter (matchesList c s e)) :=
      List.take_sublist _ _ |>.mem hr
    exact List.mem_filter.mp (mem_sortRows.mp hr')
  · intro r hr hm
    have hrb : r ∈ sortRows (st.rows.filter (matchesList c s e)) :=
      mem_sortRows.mpr (List.mem_filter.mpr ⟨hr, hm⟩)
    by_cases hlen : (sortRows (st.rows.filter (matchesList c s e))).length ≤ lim.toNat
    · left
      rw [hLR, List.take_of_length_le hlen]
      exact hrb
    · right
      rw [hLR, List.length_take]
      omega

/-- Witness for C5 at the example store with the default limit 20. -/
theorem list_query_spec_witness :
    (0 : Int) ≤ 20 ∧ List.Sorted listOrder (listRows db3 none none none 20) :=
  ⟨by decide, (list_query_spec db3 none none none 20 (by decide)).1⟩

/-- C9: the limit argument is not validated; with limit 0 the SELECT returns
no rows and `list_expenses` reports "No expenses found matching the
criteria." whatever the table holds, and with a negative limit SQLite
imposes no bound, so every matching record is in the returned row set. -/
theorem limit_not_validated :
    ∀ (st : DB) (c s e : Option String),
      (list_expenses none st c s e 0).2 =
        Except.ok "No expenses found matching the criteria." ∧
      (∀ lim : Int, lim < 0 → ∀ r ∈ st.rows, matchesList c s e r = true →
        r ∈ listRows st c s e lim) := by
  intro st c s e
  constructor
  · have h0 : listRows st c s e 0 = [] := by
      unfold listRows applyLimit
      norm_num
    rw [list_expenses_none_empty h0]
  · intro lim hneg r hr hm
    unfold listRows applyLimit
    rw [if_pos hneg]
    exact mem_sortRows.mpr (List.mem_filter.mpr ⟨hr, hm⟩)

/-- Witness for C9: with limit −1 the matching record of the example store is
returned even though −1 < 0. -/
theorem limit_not_validated_witness :
    (-1 : Int) < 0 ∧
      (⟨1, 10, "2024-01-01", "Food", some "Grocery", none⟩ : Record) ∈
        listRows db3 none none none (-1) :=
  ⟨by decide,
    (limit_not_validated db3 none none none).2 (-1) (by decide)
      ⟨1, 10, "2024-01-01", "Food", some "Grocery", none⟩ (by decide) (by decide)⟩

/-- C6: a record passes the WHERE clause of `list_expenses` exactly when
every supplied (truthy) filter holds — category equal to the given one,
date lexicographically ≥ start and ≤ end, bounds inclusive — and likewise
for `get_summary` (date bounds only); on the spec's example store the date
window 2024-01-10 … 2024-01-31 selects exactly the record dated 2024-01-15. -/
theorem filter_semantics :
    ∀ (st : DB) (c s e : Option String) (r : Record),
      (r ∈ st.rows.filter (matchesList c s e) ↔
        r ∈ st.rows ∧ (truthy c = true → r.category = c.getD "") ∧
        (truthy s = true → strLe (s.getD "") r.date = true) ∧
        (truthy e = true → strLe r.date (e.getD "") = true)) ∧
      (r ∈ st.rows.filter (matchesSummary s e) ↔
        r ∈ st.rows ∧ (truthy s = true → strLe (s.getD "") r.date = true) ∧
        (truthy e = true → strLe r.date (e.getD "") = true)) ∧
      listRows dbDates none (some "2024-01-10") (some "2024-01-31") 20 =
        [⟨2, 20, "2024-01-15", "Food", none, none⟩] := by
  intro st c s e r
  refine ⟨?_, ?_, by decide⟩
  · rw [List.mem_filter]
    unfold matchesList
    cases hc : truthy c <;> cases hs : truthy s <;> cases he : truthy e <;>
      simp [beq_iff_eq, and_assoc]
  · rw [List.mem_filter]
    unfold matchesSummary
    cases hs : truthy s <;> cases he : truthy e <;>
      simp [and_assoc]

/-- Witness for C6: the date-window example extracted from the theorem. -/
theorem filter_semantics_witness :
    listRows dbDates none (some "2024-01-10") (some "2024-01-31") 20 =
      [⟨2, 20, "2024-01-15", "Food", none, none⟩] :=
  (filter_semantics dbDates none none none ⟨1, 1, "", "", none, none⟩).2.2

theorem listRows_after_append {rows : List Record} {nid : Nat} {r : Record}
    (hdate : ∀ x ∈ rows, strLe x.date r.date = true ∧ x.id < nid)
    (hid : r.id = nid) :
    ∃ t, listRows ⟨rows ++ [r], nid + 1⟩ none none none 20 = r :: t := by
  have hfilter : (rows ++ [r]).filter (matchesList none none none) = rows ++ [r] :=
    List.filter_eq_self.mpr fun _ _ => rfl
  have hmem : r ∈ rows ++ [r] :=
    List.mem_append_right _ (List.mem_singleton.mpr rfl)
  have hstrict : ∀ y ∈ rows ++ [r], y = r ∨ ¬ listOrder y r := by
    intro y hy
    rcases List.mem_append.mp hy with hy | hy
    · right
      obtain ⟨hd, hi⟩ := hdate y hy
      have hfalse : strLt r.date y.date = false := by simpa [strLe] using hd
      rintro (hlt | ⟨heq, hle⟩)
      · rw [hfalse] at hlt
        cases hlt
      · rw [hid] at hle
        exact absurd hi (not_lt.mpr hle)
    · left
      exact List.mem_singleton.mp hy
  obtain ⟨t, ht⟩ := sortRows_cons_of_strict_max hmem hstrict
  refine ⟨t.take 19, ?_⟩
  unfold listRows applyLimit
  rw [if_neg (by decide : ¬ (20 : Int) < 0)]
  dsimp only
  rw [hfilter, ht]
  rfl

/-- C4: after a valid add (amount > 0) into a store whose rows are not dated
after the new record and whose ids are below the sequence value, listing with
no filters returns output containing the added record, and its line displays
the input amount rendered to two decimal places (`format2`). -/
theorem add_then_list_round_trip :
    ∀ (st : DB) (a : AddArgs) (today : String),
      0 < a.amount →
      (∀ x ∈ st.rows, strLe x.date (record_date a today) = true ∧ x.id < st.nextId) →
      ∃ (r : Record) (lines : List String),
        (add_expense none st a today).1.rows = st.rows ++ [r] ∧
        r.amount = a.amount ∧
        (list_expenses none (add_expense none st a today).1 none none none 20).2 =
          Except.ok (String.intercalate "\n" lines) ∧
        formatListRow r ∈ lines ∧
        ∃ pre post, formatListRow r = pre ++ format2 a.amount ++ post := by
  intro st a today hpos hmax
  have hadd := @add_expense_pos st a today hpos
  set rec : Record := ⟨st.nextId, a.amount, record_date a today, a.category,
    a.subcategory, a.note⟩ with hrec
  have hst1 : (add_expense none st a today).1 = ⟨st.rows ++ [rec], st.nextId + 1⟩ := by
    rw [hadd]
  obtain ⟨t, ht⟩ :=
    @listRows_after_append st.rows st.nextId rec hmax rfl
  refine ⟨rec,
    listHeader ++ (listRows ⟨st.rows ++ [rec], st.nextId + 1⟩ none none none 20).map
      formatListRow, ?_, rfl, ?_, ?_, ?_⟩
  · rw [hst1]
  · rw [hst1, list_expenses_none_nonempty (by rw [ht]; rfl)]
  · refine List.mem_append_right _ ?_
    rw [ht]
    exact List.mem_map_of_mem formatListRow (List.mem_cons_self rec t)
  · refine ⟨padRight (toString rec.id) 4 ++ " | " ++ padRight rec.date 10 ++ " | " ++
      padRight rec.category 12 ++ " | " ++ padRight (displayOpt rec.subcategory) 12 ++
      " | $",
      String.mk (List.replicate (7 - (format2 rec.amount).length) ' ') ++ " | " ++
        rec.note.getD "", ?_⟩
    have hline : formatListRow rec =
        (padRight (toString rec.id) 4 ++ " | " ++ padRight rec.date 10 ++ " | " ++
          padRight rec.category 12 ++ " | " ++ padRight (displayOpt rec.subcategory) 12 ++
          " | $") ++ format2 rec.amount ++
          (String.mk (List.replicate (7 - (format2 rec.amount).length) ' ') ++ " | " ++
            rec.note.getD "") := by
      simp only [formatListRow, padRight, String.append_assoc]
    exact hline

/-- Witness for C4: adding Food/Grocery $5 on 2024-03-05 to the empty store
and listing returns it. -/
theorem add_then_list_round_trip_witness :
    (0 : ℚ) < 5 ∧
      ∃ (r : Record) (lines : List String),
        (add_expense none emptyDB ⟨5, "Food", some "Grocery", some "lunch",
          some "2024-03-05"⟩ "2024-03-01").1.rows = emptyDB.rows ++ [r] ∧
        r.amount = 5 ∧
        (list_expenses none (add_expense none emptyDB ⟨5, "Food", some "Grocery",
          some "lunch", some "2024-03-05"⟩ "2024-03-01").1 none none none 20).2 =
          Except.ok (String.intercalate "\n" lines) ∧
        formatListRow r ∈ lines ∧
        ∃ pre post, formatListRow r = pre ++ format2 5 ++ post :=
  ⟨by decide,
    add_then_list_round_trip emptyDB ⟨5, "Food", some "Grocery", some "lunch",
      some "2024-03-05"⟩ "2024-03-01" (by decide) (by simp [emptyDB])⟩

theorem idsInv_add (dbErr : Option String) (a : AddArgs) (today : String) {st : DB}
    (h1 : st.rows.map (·.id) = List.range' 1 st.rows.length)
    (h2 : st.nextId = st.rows.length + 1) :
    (add_expense dbErr st a today).1.rows.map (·.id) =
      List.range' 1 (add_expense dbErr st a today).1.rows.length ∧
    (add_expense dbErr st a today).1.nextId =
      (add_expense dbErr st a today).1.rows.length + 1 := by
  unfold add_expense
  by_cases hle : a.amount ≤ 0
  · rw [if_pos hle]
    exact ⟨h1, h2⟩
  · rw [if_neg hle]
    cases dbErr with
    | some m => exact ⟨h1, h2⟩
    | none =>
      dsimp only
      constructor
      · rw [List.map_append, h1, List.length_append]
        simp only [List.length_singleton, List.range'_concat, List.map_cons,
          List.map_nil, Nat.one_mul]
        simp [h2, Nat.add_comm]
      · simp [h2]

theorem idsInv_applyAdds (l : List (AddArgs × String)) :
    (applyAdds l).rows.map (·.id) = List.range' 1 (applyAdds l).rows.length ∧
    (applyAdds l).nextId = (applyAdds l).rows.length + 1 := by
  unfold applyAdds
  suffices h : ∀ st : DB,
      (st.rows.map (·.id) = List.range' 1 st.rows.length ∧
        st.nextId = st.rows.length + 1) →
      ((l.foldl (fun st p => (add_expense none st p.1 p.2).1) st).rows.map (·.id) =
        List.range' 1 (l.foldl (fun st p => (add_expense none st p.1 p.2).1) st).rows.length ∧
      (l.foldl (fun st p => (add_expense none st p.1 p.2).1) st).nextId =
        (l.foldl (fun st p => (add_expense none st p.1 p.2).1) st).rows.length + 1) by
    exact h (init_db none) ⟨rfl, rfl⟩
  induction l with
  | nil => exact fun st h => h
  | cons p rest ih =>
    intro st h
    exact ih _ (idsInv_add none p.1 p.2 h.1 h.2)

/-- C7: starting from the freshly initialised store, after any sequence of
adds the stored ids are exactly 1..n in insertion order (so they are strictly
increasing and never reused), a further successful add assigns the id equal
to the row count after that insertion, and that id is the one echoed in the
success message. -/
theorem add_ids_monotone :
    ∀ (l : List (AddArgs × String)) (a : AddArgs) (today : String),
      0 < a.amount →
      (applyAdds l).rows.map (·.id) = List.range' 1 (applyAdds l).rows.length ∧
      (add_expense none (applyAdds l) a today).1.rows.map (·.id) =
        List.range' 1 (add_expense none (applyAdds l) a today).1.rows.length ∧
      ((add_expense none (applyAdds l) a today).1.rows.getLast?).map (·.id) =
        some (add_expense none (applyAdds l) a today).1.rows.length ∧
      ∃ rest, (add_expense none (applyAdds l) a today).2 =
        Except.ok ("Successfully added expense ID " ++
          toString (add_expense none (applyAdds l) a today).1.rows.length ++ rest) := by
  intro l a today hpos
  obtain ⟨h1, h2⟩ := idsInv_applyAdds l
  have hadd := @add_expense_pos (applyAdds l) a today hpos
  refine ⟨h1, (idsInv_add none a today h1 h2).1, ?_, ?_⟩
  · rw [hadd]
    dsimp only
    rw [List.getLast?_concat]
    simp [h2]
  · refine ⟨": " ++ a.category ++ " (" ++ displayOpt a.subcategory ++ ") - $" ++
      format2 a.amount ++ " on " ++ record_date a today, ?_⟩
    rw [hadd]
    dsimp only
    rw [List.length_append]
    simp only [List.length_singleton]
    rw [← h2]
    simp [String.append_assoc]

/-- Witness for C7 at a two-add sequence: after adding Food $7 then
Transport $5 the stored ids are [1, 2]. -/
theorem add_ids_monotone_witness :
    (0 : ℚ) < 5 ∧
      (applyAdds [(⟨7, "Food", none, none, none⟩, "2024-01-01")]).rows.map (·.id) =
        List.range' 1
          (applyAdds [(⟨7, "Food", none, none, none⟩, "2024-01-01")]).rows.length :=
  ⟨by decide,
    (add_ids_monotone [(⟨7, "Food", none, none, none⟩, "2024-01-01")]
      ⟨5, "Transport", none, none, none⟩ "2024-01-02" (by decide)).1⟩

section
attribute [local semireducible] Rat.add Rat.mul Rat.sub Rat.inv Rat.ofScientific
set_option maxRecDepth 1000000

/-- C1: evaluating the embedded `get_summary` on the spec's example store
(Food/Grocery $10, Food/Restaurant $30, Transport $5) shows that a category
subheading reports the SUM and COUNT of that category's first (highest-sum)
subcategory group, not the category's own subtotal and entry count: the FOOD
header reads "$30.00 (1 entries)" although the category holds $40.00 over 2
entries.  The code's own header label "Total … entries" (and the spec) call
for the category subtotal, so this is a bug in the source loop, which prints
the current row's aggregates whenever the category changes. -/
theorem get_summary_header_uses_first_group :
    get_summary none db3 none none =
      (db3, Except.ok ("Expense Summary Report (Beginning to Now)\nTOTAL SPEND: $45.00\n" ++
        "----------------------------------------\n\n[FOOD] - Total: $30.00 (1 entries)\n" ++
        "  └─ Restaurant: $30.00\n  └─ Grocery: $10.00\n\n[TRANSPORT] - Total: $5.00 (1 entries)")) := by
  decide

end
